import Mathlib

/-!
Verification of the InPynamoDB client-side query/scan pagination engine,
expression compiler, batch-write coordinator and model factory guard.

The repository ships `pynamodb_async/models.py` together with its test suite.
The pagination, batch-write, expression-compilation and exception modules it
drives (`pynamodb_async/pagination.py`, the batch coordinator, the condition
compiler, the exception hierarchy) are not part of the source tree, so those
components are modelled from the specification; `models.py` itself (the
`page_size` defaulting of `Model.query`, the `__init__` call-site guard and the
`create` factory) is embedded directly from the source.
-/

deriving instance DecidableEq for Except

namespace InPynamoDB

/-- Modelled from the spec: a `Page` as produced by one query/scan RPC
(`pynamodb_async/pagination.py` is absent from src/). Items are identified by
their keys, here natural numbers. `count`/`scannedCount` are the raw server
statistics of the page, `lastEvaluatedKey` the continuation token. -/
structure Page where
  items : List Nat
  count : Nat
  scannedCount : Nat
  lastEvaluatedKey : Option Nat
deriving DecidableEq

/-- Modelled from the spec: the wire-visible fields of one query/scan RPC that
the pagination engine controls: the `Limit` field and the `ExclusiveStartKey`. -/
structure Rpc where
  limit : Option Nat
  exclusiveStartKey : Option Nat
deriving DecidableEq

/-- Modelled from the spec: the observable outcome of driving a Result Iterator
over a Page Iterator to completion: the RPCs issued in order, the items
yielded, the accumulated `total_count` and `total_scanned_count`, and the
value of `get_last_evaluated_key()` after iteration. -/
structure IterResult where
  rpcs : List Rpc
  yielded : List Nat
  totalCount : Nat
  totalScannedCount : Nat
  lastEvaluatedKey : Option Nat
deriving DecidableEq

/-- Modelled from the spec: the Page Iterator / Result Iterator loop
(`pynamodb_async/pagination.py` is absent from src/). Each step issues one RPC
whose `Limit` field is the (constant) `limit` keyword of the operation and
whose `ExclusiveStartKey` is the previous page's continuation token; the
Result Iterator yields at most `remaining` further items, the iteration
stops when the limit is reached mid-page, when the response carries no
`LastEvaluatedKey` (server exhausted), or when the limit is reached exactly at
a page boundary; `total_count` and `total_scanned_count` accumulate the raw
page statistics; `get_last_evaluated_key()` is the key of the last item
actually yielded when the limit truncated the final page, otherwise the final
page's own continuation token. The server is a script of page responses. -/
def queryGo (kwLimit : Option Nat) : Option Nat → Option Nat → List Page → IterResult
  | _, _, [] => ⟨[], [], 0, 0, none⟩
  | remaining, esk, r :: rest =>
    let taken := match remaining with
      | none => r.items
      | some n => r.items.take n
    let rem2 := remaining.map (fun n => n - taken.length)
    let truncated := decide (taken.length < r.items.length)
    let stop : Bool := truncated || r.lastEvaluatedKey.isNone || rem2 == some 0
    if stop then
      ⟨[⟨kwLimit, esk⟩], taken, r.count, r.scannedCount,
        if truncated then taken.getLast? else r.lastEvaluatedKey⟩
    else
      let sub := queryGo kwLimit rem2 r.lastEvaluatedKey rest
      ⟨⟨kwLimit, esk⟩ :: sub.rpcs, taken ++ sub.yielded,
        r.count + sub.totalCount, r.scannedCount + sub.totalScannedCount,
        sub.lastEvaluatedKey⟩

/-- Embedded from `src/pynamodb_async/models.py`, `Model.query`: when no
explicit `page_size` is given, `page_size` defaults to `limit`
(`if page_size is None: page_size = limit`), and `page_size` becomes the
`limit` keyword of every connection-level query call. -/
def effectiveKwLimit (limit pageSize : Option Nat) : Option Nat :=
  match pageSize with
  | none => limit
  | some p => some p

/-- Modelled from the spec: the full query pipeline of `Model.query` — the
`page_size` defaulting from `src/pynamodb_async/models.py` composed with the
Result Iterator loop over a scripted server. -/
def runQuery (limit pageSize : Option Nat) (responses : List Page) : IterResult :=
  queryGo (effectiveKwLimit limit pageSize) limit none responses

/-- Keys of one server page of ten items starting at `lo`. -/
def pageKeys (lo : Nat) : List Nat := (List.range 10).map (fun i => lo + i)

/-- The three-page server script of the limit tests: 30 matching items in
pages of 10, each page reporting `Count = 10`, `ScannedCount = 20`, every page
carrying a continuation key (100, 101, 102 standing for `x`, `y`, `z`). -/
def qPages : List Page :=
  [⟨pageKeys 0, 10, 20, some 100⟩,
   ⟨pageKeys 10, 10, 20, some 101⟩,
   ⟨pageKeys 20, 10, 20, some 102⟩]

/-- The same script except that the third page carries no continuation key. -/
def qPagesNoFinalKey : List Page :=
  [⟨pageKeys 0, 10, 20, some 100⟩,
   ⟨pageKeys 10, 10, 20, some 101⟩,
   ⟨pageKeys 20, 10, 20, none⟩]

/-- C1: a query with `limit = 25` against a server holding 30 matching items
in pages of 10 (each page reporting `Count = 10`, `ScannedCount = 20`, with a
`LastEvaluatedKey`) yields exactly the first 25 items over exactly 3 RPCs,
`get_last_evaluated_key()` equals the key of the 25th yielded item (24, not
the final page's own continuation key 102), `total_count = 30` and
`total_scanned_count = 60`; with `page_size = 10` also given, the same totals
hold but every RPC's `Limit` field is 10 instead of 25. -/
theorem query_limit25_three_pages :
    (runQuery (some 25) none qPages).rpcs =
      [⟨some 25, none⟩, ⟨some 25, some 100⟩, ⟨some 25, some 101⟩] ∧
    (runQuery (some 25) none qPages).yielded = (List.range 30).take 25 ∧
    (runQuery (some 25) none qPages).yielded.length = 25 ∧
    (runQuery (some 25) none qPages).lastEvaluatedKey = some 24 ∧
    (runQuery (some 25) none qPages).lastEvaluatedKey ≠ some 102 ∧
    (runQuery (some 25) none qPages).totalCount = 30 ∧
    (runQuery (some 25) none qPages).totalScannedCount = 60 ∧
    (runQuery (some 25) (some 10) qPages).rpcs =
      [⟨some 10, none⟩, ⟨some 10, some 100⟩, ⟨some 10, some 101⟩] ∧
    (runQuery (some 25) (some 10) qPages).yielded.length = 25 ∧
    (runQuery (some 25) (some 10) qPages).lastEvaluatedKey = some 24 ∧
    (runQuery (some 25) (some 10) qPages).totalCount = 30 ∧
    (runQuery (some 25) (some 10) qPages).totalScannedCount = 60 := by
  decide

/-- Modelled from the spec: the Rate-Limited Scan Driver. With
`read_capacity_to_consume_per_second` set and no explicit page size, every
scan RPC carries `Limit` equal to the per-second capacity budget, and the
iteration stops once the server reports no further continuation key. The
sleeping between pages is timing behaviour and is not modelled. -/
def rateLimitedScan (readCapacityToConsumePerSecond : Nat) (responses : List Page) : IterResult :=
  queryGo (some readCapacityToConsumePerSecond) none none responses

/-- The single scan response page of the rate-limited scan test: ten items,
no continuation key. -/
def scanPage : Page := ⟨pageKeys 0, 10, 10, none⟩

lemma queryGo_rpc_limit (kw : Option Nat) :
    ∀ (rs : List Page) (rem esk : Option Nat) (rpc : Rpc),
      rpc ∈ (queryGo kw rem esk rs).rpcs → rpc.limit = kw := by
  intro rs
  induction rs with
  | nil =>
    intro rem esk rpc h
    simp [queryGo] at h
  | cons r rest ih =>
    intro rem esk rpc h
    simp only [queryGo] at h
    split at h
    · simp only [List.mem_singleton] at h
      subst h
      rfl
    · simp only [List.mem_cons] at h
      rcases h with h | h
      · subst h
        rfl
      · exact ih _ _ _ h

/-- C2, counterexample: with `limit = 25` and `page_size = 10`, after 20 items
have been received the third RPC's `Limit` field is 10, not
`min(page_size, remaining_limit) = min(10, 5) = 5` as the claim states. -/
theorem query_third_rpc_limit_not_min :
    ((runQuery (some 25) (some 10) qPages).rpcs.get? 2).map Rpc.limit =
      some (some 10) ∧
    (10 : Nat) ≠ min 10 (25 - 20) := by
  decide

/-- C2, amended: every RPC issued by the query/scan page loop carries `Limit`
equal to `page_size` (which defaults to `limit` when no page size is given),
independent of how many items have already been received. -/
theorem query_rpc_limit_constant (limit pageSize : Option Nat)
    (responses : List Page) (rpc : Rpc)
    (h : rpc ∈ (runQuery limit pageSize responses).rpcs) :
    rpc.limit = effectiveKwLimit limit pageSize :=
  queryGo_rpc_limit _ _ _ _ _ h

/-- C2, amended, witness: the first RPC of the `limit = 25`, `page_size = 10`
scenario carries `Limit = 10`. -/
theorem query_rpc_limit_constant_witness :
    (⟨some 10, none⟩ : Rpc) ∈ (runQuery (some 25) (some 10) qPages).rpcs ∧
    (⟨some 10, none⟩ : Rpc).limit = effectiveKwLimit (some 25) (some 10) :=
  ⟨by decide, query_rpc_limit_constant (some 25) (some 10) qPages ⟨some 10, none⟩ (by decide)⟩

/-- C7: whenever a response page arrives with no `LastEvaluatedKey`, the page
loop stops after that page and issues no further RPC, whatever the remaining
limit; in particular a query with `limit = 50` over three server pages of 10
with no key on the third page issues exactly 3 RPCs, yields all 30 items, and
`get_last_evaluated_key()` is `none`, with `total_count = 30` and
`total_scanned_count = 60`. -/
theorem page_without_key_exhausts (kw rem esk : Option Nat) (r : Page)
    (rest : List Page) (h : r.lastEvaluatedKey = none) :
    (queryGo kw rem esk (r :: rest)).rpcs.length = 1 ∧
    (runQuery (some 50) none qPagesNoFinalKey).rpcs.length = 3 ∧
    (runQuery (some 50) none qPagesNoFinalKey).yielded = List.range 30 ∧
    (runQuery (some 50) none qPagesNoFinalKey).lastEvaluatedKey = none ∧
    (runQuery (some 50) none qPagesNoFinalKey).totalCount = 30 ∧
    (runQuery (some 50) none qPagesNoFinalKey).totalScannedCount = 60 := by
  refine ⟨?_, by decide, by decide, by decide, by decide, by decide⟩
  simp [queryGo, h]

/-- C7, witness: a single empty page with no continuation key stops the loop
after one RPC. -/
theorem page_without_key_exhausts_witness :
    (queryGo none none none ([⟨[], 0, 0, none⟩] : List Page)).rpcs.length = 1 :=
  (page_without_key_exhausts none none none ⟨[], 0, 0, none⟩ [] rfl).1

/-- C8: a rate-limited scan with `read_capacity_to_consume_per_second = 13`
and no explicit page size carries `Limit = 13` on every scan RPC, and against
a server page of ten items with no continuation key it issues exactly one RPC,
yields all ten items and stops. -/
theorem rate_limited_scan_limit13 (responses : List Page) (rpc : Rpc)
    (h : rpc ∈ (rateLimitedScan 13 responses).rpcs) :
    rpc.limit = some 13 ∧
    (rateLimitedScan 13 [scanPage]).rpcs = [⟨some 13, none⟩] ∧
    (rateLimitedScan 13 [scanPage]).yielded = pageKeys 0 :=
  ⟨queryGo_rpc_limit _ _ _ _ _ h, by decide, by decide⟩

/-- C8, witness: the RPC of the one-page rate-limited scan carries
`Limit = 13`. -/
theorem rate_limited_scan_limit13_witness :
    (⟨some 13, none⟩ : Rpc) ∈ (rateLimitedScan 13 [scanPage]).rpcs ∧
    (⟨some 13, none⟩ : Rpc).limit = some 13 :=
  ⟨by decide, (rate_limited_scan_limit13 [scanPage] ⟨some 13, none⟩ (by decide)).1⟩

/-- Modelled from the spec: the error raised by the Batch Write Coordinator
when a 26th request is queued without `auto_commit` before an explicit
`commit()` (the coordinator module is absent from src/). -/
inductive BatchErr where
  | batchSizeExceeded
deriving DecidableEq

/-- Modelled from the spec: the observable state of a Batch Write Coordinator —
the pending requests of the current chunk (capped at 25) and the payloads of
the automatic flush RPCs issued so far. Requests are identified by keys,
here natural numbers. -/
structure BatchState where
  pending : List Nat
  flushes : List (List Nat)
deriving DecidableEq

/-- Modelled from the spec: queueing one put/delete request on the Batch Write
Coordinator. When 25 requests are already pending, `auto_commit = true`
flushes the pending 25 as one RPC and then accepts the new request, while
`auto_commit = false` fails with `BatchSizeExceededError`; below the cap the
request is simply appended. -/
def enqueue (autoCommit : Bool) (st : BatchState) (r : Nat) :
    Except BatchErr BatchState :=
  if st.pending.length ≥ 25 then
    if autoCommit then
      .ok ⟨[r], st.flushes ++ [st.pending]⟩
    else
      .error .batchSizeExceeded
  else
    .ok ⟨st.pending ++ [r], st.flushes⟩

/-- Modelled from the spec: queueing a sequence of requests one by one,
stopping at the first error. -/
def enqueueAll (autoCommit : Bool) (st : BatchState) : List Nat → Except BatchErr BatchState
  | [] => .ok st
  | r :: rs =>
    match enqueue autoCommit st r with
    | .ok st2 => enqueueAll autoCommit st2 rs
    | .error e => .error e

/-- Modelled from the spec: the unprocessed-items retry loop of the Batch
Write Coordinator. One RPC is issued per round with the current requests; the
scripted server response is the unprocessed subset for the table; requests not
reported unprocessed are acknowledged; a non-empty unprocessed set is requeued
as the next RPC's entire payload; an empty unprocessed set terminates the
loop. Returns the RPC payloads in order and the acknowledged requests in
acknowledgement order. -/
def batchRetry (toSend : List Nat) : List (List Nat) → List (List Nat) × List Nat
  | [] => ([], [])
  | u :: rest =>
    let acked := toSend.filter (fun r => !u.contains r)
    if u.isEmpty then
      ([toSend], acked)
    else
      let sub := batchRetry u rest
      (toSend :: sub.1, acked ++ sub.2)

/-- The scripted batch-write server of the unprocessed test: first response
reports 5 requests unprocessed, the second reports 3 of those unprocessed,
the third reports none. -/
def batchScript : List (List Nat) :=
  [[5, 6, 7, 8, 9], [7, 8, 9], []]

/-- C3: a batch write of 10 items against a server reporting 5 unprocessed,
then 3 unprocessed, then none, issues exactly 3 RPCs; each retry RPC carries
exactly the previously unprocessed subset; every originally submitted item is
acknowledged exactly once; and no already-acknowledged item appears in a later
RPC. -/
theorem batch_write_unprocessed_retry :
    (batchRetry (List.range 10) batchScript).1 =
      [List.range 10, [5, 6, 7, 8, 9], [7, 8, 9]] ∧
    (batchRetry (List.range 10) batchScript).1.length = 3 ∧
    (batchRetry (List.range 10) batchScript).2 =
      [0, 1, 2, 3, 4] ++ [5, 6] ++ [7, 8, 9] ∧
    ((List.range 10).all
      (fun r => (batchRetry (List.range 10) batchScript).2.count r == 1)) = true ∧
    (([0, 1, 2, 3, 4].all
      (fun r => !([5, 6, 7, 8, 9].contains r) && !([7, 8, 9].contains r)))
      && ([5, 6].all (fun r => !([7, 8, 9].contains r)))) = true := by
  decide

/-- C4: with `auto_commit = false`, queueing a 26th request before an explicit
`commit()` fails with `BatchSizeExceededError` (the first 25 are accepted);
with `auto_commit = true`, the 26th request triggers an automatic flush RPC
carrying the pending 25 and is itself accepted as the new pending chunk. -/
theorem batch_write_26th_request :
    enqueueAll false ⟨[], []⟩ (List.range 26) = .error .batchSizeExceeded ∧
    enqueueAll false ⟨[], []⟩ (List.range 25) = .ok ⟨List.range 25, []⟩ ∧
    enqueueAll true ⟨[], []⟩ (List.range 26) = .ok ⟨[25], [List.range 25]⟩ := by
  decide

/-- Modelled from the spec: the Condition Node tree of the Condition Model
(the condition/expression module is absent from src/). Attribute paths and
already-serialized literal values are strings. -/
inductive Cond where
  | comparison (op : String) (path : String) (value : String)
  | beginsWith (path : String) (value : String)
  | containsAttr (path : String) (value : String)
  | existsAttr (path : String)
  | notExistsAttr (path : String)
  | between (path : String) (lo : String) (hi : String)
  | inList (path : String) (values : List String)
  | and (a : Cond) (b : Cond)
  | or (a : Cond) (b : Cond)
  | not (a : Cond)
deriving DecidableEq

/-- Modelled from the spec: the shared alias maps of one request — attribute
paths to name aliases and serialized literals to value aliases, both kept in
first-use allocation order. -/
structure AliasState where
  names : List (String × String)
  values : List (String × String)
deriving DecidableEq

/-- Look up an existing alias in an association list. -/
def lookupAlias (l : List (String × String)) (k : String) : Option String :=
  match l.find? (fun p => p.1 == k) with
  | some p => some p.2
  | none => none

/-- Modelled from the spec: name-alias allocation. A path already in the map
reuses its alias; a fresh path takes the next alias in sequence,
numbered from 0 in first-encounter order. -/
def allocName (st : AliasState) (path : String) : String × AliasState :=
  match lookupAlias st.names path with
  | some a => (a, st)
  | none =>
    let a := "#" ++ toString st.names.length
    (a, ⟨st.names ++ [(path, a)], st.values⟩)

/-- Modelled from the spec: value-alias allocation. A serialized literal
already in the map reuses its alias; a fresh literal takes the next alias in
sequence, numbered from 0 in first-encounter order. -/
def allocValue (st : AliasState) (v : String) : String × AliasState :=
  match lookupAlias st.values v with
  | some a => (a, st)
  | none =>
    let a := ":" ++ toString st.values.length
    (a, ⟨st.names, st.values ++ [(v, a)]⟩)

/-- Modelled from the spec: value-alias allocation for the operand list of an
`IN` condition, left to right. -/
def allocValues (st : AliasState) : List String → List String × AliasState
  | [] => ([], st)
  | v :: vs =>
    let p := allocValue st v
    let q := allocValues p.2 vs
    (p.1 :: q.1, q.2)

/-- Render the comma-separated operand aliases of an `IN` condition. -/
def joinComma : List String → String
  | [] => ""
  | [a] => a
  | a :: rest => a ++ ", " ++ joinComma rest

/-- Modelled from the spec: the Expression Compiler. Walks a Condition tree
against shared alias maps and emits the expression string together with the
extended maps, using the fixed per-operator templates and allocating aliases
in left-to-right first-encounter order. -/
def compileCond : Cond → AliasState → String × AliasState
  | .comparison op p v, st =>
    let n := allocName st p
    let w := allocValue n.2 v
    (n.1 ++ " " ++ op ++ " " ++ w.1, w.2)
  | .beginsWith p v, st =>
    let n := allocName st p
    let w := allocValue n.2 v
    ("begins_with (" ++ n.1 ++ ", " ++ w.1 ++ ")", w.2)
  | .containsAttr p v, st =>
    let n := allocName st p
    let w := allocValue n.2 v
    ("contains (" ++ n.1 ++ ", " ++ w.1 ++ ")", w.2)
  | .existsAttr p, st =>
    let n := allocName st p
    ("attribute_exists (" ++ n.1 ++ ")", n.2)
  | .notExistsAttr p, st =>
    let n := allocName st p
    ("attribute_not_exists (" ++ n.1 ++ ")", n.2)
  | .between p lo hi, st =>
    let n := allocName st p
    let l := allocValue n.2 lo
    let h := allocValue l.2 hi
    (n.1 ++ " BETWEEN " ++ l.1 ++ " AND " ++ h.1, h.2)
  | .inList p vs, st =>
    let n := allocName st p
    let w := allocValues n.2 vs
    (n.1 ++ " IN (" ++ joinComma w.1 ++ ")", w.2)
  | .and a b, st =>
    let x := compileCond a st
    let y := compileCond b x.2
    ("(" ++ x.1 ++ " AND " ++ y.1 ++ ")", y.2)
  | .or a b, st =>
    let x := compileCond a st
    let y := compileCond b x.2
    ("(" ++ x.1 ++ " OR " ++ y.1 ++ ")", y.2)
  | .not a, st =>
    let x := compileCond a st
    ("(NOT " ++ x.1 ++ ")", x.2)

/-- The key condition of the query test: hash-key equality on `user_name`
combined with `begins_with` on the range key `user_id`. -/
def keyCondition : Cond :=
  .and (.comparison "=" "user_name" "foo") (.beginsWith "user_id" "id")

/-- The filter condition of the query test:
`contains(email, @) AND attribute_exists(picture) AND zip_code BETWEEN 2 AND 3`,
left-associated. -/
def filterCondition : Cond :=
  .and (.and (.containsAttr "email" "@") (.existsAttr "picture"))
    (.between "zip_code" "2" "3")

lemma allocName_extends (st : AliasState) (p : String) :
    (∃ ns, (allocName st p).2.names = st.names ++ ns) ∧
    (∃ vs, (allocName st p).2.values = st.values ++ vs) := by
  unfold allocName
  cases lookupAlias st.names p with
  | none => exact ⟨⟨_, rfl⟩, ⟨[], by simp⟩⟩
  | some a => exact ⟨⟨[], by simp⟩, ⟨[], by simp⟩⟩

lemma allocValue_extends (st : AliasState) (v : String) :
    (∃ ns, (allocValue st v).2.names = st.names ++ ns) ∧
    (∃ vs, (allocValue st v).2.values = st.values ++ vs) := by
  unfold allocValue
  cases lookupAlias st.values v with
  | none => exact ⟨⟨[], by simp⟩, ⟨_, rfl⟩⟩
  | some a => exact ⟨⟨[], by simp⟩, ⟨[], by simp⟩⟩

lemma allocValues_extends (vs : List String) :
    ∀ st : AliasState,
      (∃ ns, (allocValues st vs).2.names = st.names ++ ns) ∧
      (∃ ws, (allocValues st vs).2.values = st.values ++ ws) := by
  induction vs with
  | nil => intro st; exact ⟨⟨[], by simp [allocValues]⟩, ⟨[], by simp [allocValues]⟩⟩
  | cons v vs ih =>
    intro st
    obtain ⟨⟨ns1, h1⟩, ⟨ws1, h2⟩⟩ := allocValue_extends st v
    obtain ⟨⟨ns2, h3⟩, ⟨ws2, h4⟩⟩ := ih (allocValue st v).2
    refine ⟨⟨ns1 ++ ns2, ?_⟩, ⟨ws1 ++ ws2, ?_⟩⟩
    · simp only [allocValues, h3, h1, List.append_assoc]
    · simp only [allocValues, h4, h2, List.append_assoc]

lemma compileCond_extends (c : Cond) :
    ∀ st : AliasState,
      (∃ ns, (compileCond c st).2.names = st.names ++ ns) ∧
      (∃ vs, (compileCond c st).2.values = st.values ++ vs) := by
  induction c with
  | comparison op p v =>
    intro st
    obtain ⟨⟨ns1, h1⟩, ⟨vs1, h2⟩⟩ := allocName_extends st p
    obtain ⟨⟨ns2, h3⟩, ⟨vs2, h4⟩⟩ := allocValue_extends (allocName st p).2 v
    exact ⟨⟨ns1 ++ ns2, by simp only [compileCond, h3, h1, List.append_assoc]⟩,
      ⟨vs1 ++ vs2, by simp only [compileCond, h4, h2, List.append_assoc]⟩⟩
  | beginsWith p v =>
    intro st
    obtain ⟨⟨ns1, h1⟩, ⟨vs1, h2⟩⟩ := allocName_extends st p
    obtain ⟨⟨ns2, h3⟩, ⟨vs2, h4⟩⟩ := allocValue_extends (allocName st p).2 v
    exact ⟨⟨ns1 ++ ns2, by simp only [compileCond, h3, h1, List.append_assoc]⟩,
      ⟨vs1 ++ vs2, by simp only [compileCond, h4, h2, List.append_assoc]⟩⟩
  | containsAttr p v =>
    intro st
    obtain ⟨⟨ns1, h1⟩, ⟨vs1, h2⟩⟩ := allocName_extends st p
    obtain ⟨⟨ns2, h3⟩, ⟨vs2, h4⟩⟩ := allocValue_extends (allocName st p).2 v
    exact ⟨⟨ns1 ++ ns2, by simp only [compileCond, h3, h1, List.append_assoc]⟩,
      ⟨vs1 ++ vs2, by simp only [compileCond, h4, h2, List.append_assoc]⟩⟩
  | existsAttr p =>
    intro st
    obtain ⟨⟨ns1, h1⟩, ⟨vs1, h2⟩⟩ := allocName_extends st p
    exact ⟨⟨ns1, by simp only [compileCond, h1]⟩, ⟨vs1, by simp only [compileCond, h2]⟩⟩
  | notExistsAttr p =>
    intro st
    obtain ⟨⟨ns1, h1⟩, ⟨vs1, h2⟩⟩ := allocName_extends st p
    exact ⟨⟨ns1, by simp only [compileCond, h1]⟩, ⟨vs1, by simp only [compileCond, h2]⟩⟩
  | between p lo hi =>
    intro st
    obtain ⟨⟨ns1, h1⟩, ⟨vs1, h2⟩⟩ := allocName_extends st p
    obtain ⟨⟨ns2, h3⟩, ⟨vs2, h4⟩⟩ := allocValue_extends (allocName st p).2 lo
    obtain ⟨⟨ns3, h5⟩, ⟨vs3, h6⟩⟩ :=
      allocValue_extends (allocValue (allocName st p).2 lo).2 hi
    exact ⟨⟨ns1 ++ (ns2 ++ ns3), by
        simp only [compileCond, h5, h3, h1, List.append_assoc]⟩,
      ⟨vs1 ++ (vs2 ++ vs3), by
        simp only [compileCond, h6, h4, h2, List.append_assoc]⟩⟩
  | inList p vs =>
    intro st
    obtain ⟨⟨ns1, h1⟩, ⟨vs1, h2⟩⟩ := allocName_extends st p
    obtain ⟨⟨ns2, h3⟩, ⟨vs2, h4⟩⟩ := allocValues_extends vs (allocName st p).2
    exact ⟨⟨ns1 ++ ns2, by simp only [compileCond, h3, h1, List.append_assoc]⟩,
      ⟨vs1 ++ vs2, by simp only [compileCond, h4, h2, List.append_assoc]⟩⟩
  | and a b iha ihb =>
    intro st
    obtain ⟨⟨ns1, h1⟩, ⟨vs1, h2⟩⟩ := iha st
    obtain ⟨⟨ns2, h3⟩, ⟨vs2, h4⟩⟩ := ihb (compileCond a st).2
    exact ⟨⟨ns1 ++ ns2, by simp only [compileCond, h3, h1, List.append_assoc]⟩,
      ⟨vs1 ++ vs2, by simp only [compileCond, h4, h2, List.append_assoc]⟩⟩
  | or a b iha ihb =>
    intro st
    obtain ⟨⟨ns1, h1⟩, ⟨vs1, h2⟩⟩ := iha st
    obtain ⟨⟨ns2, h3⟩, ⟨vs2, h4⟩⟩ := ihb (compileCond a st).2
    exact ⟨⟨ns1 ++ ns2, by simp only [compileCond, h3, h1, List.append_assoc]⟩,
      ⟨vs1 ++ vs2, by simp only [compileCond, h4, h2, List.append_assoc]⟩⟩
  | not a iha =>
    intro st
    obtain ⟨⟨ns1, h1⟩, ⟨vs1, h2⟩⟩ := iha st
    exact ⟨⟨ns1, by simp only [compileCond, h1]⟩, ⟨vs1, by simp only [compileCond, h2]⟩⟩

/-- C5: compiling the key condition over `(user_name, user_id)` from empty
alias maps allocates `#0`, `#1` and `:0`, `:1` in left-to-right first-encounter
order, and compiling the filter condition afterwards against the shared maps
continues with `#2`, `#3`, `#4` and `:2`, `:3`, `:4` (the `BETWEEN` taking two
value aliases), producing exactly the wire expressions of the request;
moreover no compilation ever reassigns an existing alias: the output maps
always extend the input maps on the right. -/
theorem compiler_alias_allocation :
    (compileCond keyCondition ⟨[], []⟩).1 = "(#0 = :0 AND begins_with (#1, :1))" ∧
    (compileCond filterCondition (compileCond keyCondition ⟨[], []⟩).2).1 =
      "((contains (#2, :2) AND attribute_exists (#3)) AND #4 BETWEEN :3 AND :4)" ∧
    (compileCond filterCondition (compileCond keyCondition ⟨[], []⟩).2).2.names =
      [("user_name", "#0"), ("user_id", "#1"), ("email", "#2"),
       ("picture", "#3"), ("zip_code", "#4")] ∧
    (compileCond filterCondition (compileCond keyCondition ⟨[], []⟩).2).2.values =
      [("foo", ":0"), ("id", ":1"), ("@", ":2"), ("2", ":3"), ("3", ":4")] ∧
    (∀ (c : Cond) (st : AliasState),
      (∃ ns, (compileCond c st).2.names = st.names ++ ns) ∧
      (∃ vs, (compileCond c st).2.values = st.values ++ vs)) :=
  ⟨by decide, by decide, by decide, by decide, fun c st => compileCond_extends c st⟩

/-- Modelled from the spec: the client-validation error raised when more than
one condition is supplied against the same attribute path (the filter-building
module is absent from src/). -/
inductive FilterError where
  | multipleConditions
deriving DecidableEq

/-- Modelled from the spec: normalizing a list of keyword filters
`(attribute path, operator, value)` while tracking the attribute paths already
holding a condition; a second condition against a path already seen fails with
`MultipleConditionsError`. -/
def buildFilters :
    List (String × String × String) → List String →
      Except FilterError (List (String × String × String))
  | [], _ => .ok []
  | f :: fs, seen =>
    if seen.contains f.1 then .error .multipleConditions
    else
      match buildFilters fs (f.1 :: seen) with
      | .ok rest => .ok (f :: rest)
      | .error e => .error e

/-- Modelled from the spec: the observable outcome of one query/scan call —
how many RPCs were issued and the validation result. -/
structure QueryOutcome where
  rpcCount : Nat
  outcome : Except FilterError (List (String × String × String))
deriving DecidableEq

/-- Modelled from the spec: a query/scan call validates and compiles its
keyword filters before issuing any RPC; on a validation error zero RPCs are
issued, otherwise the request proceeds. -/
def queryWithKeywordFilters (fs : List (String × String × String)) : QueryOutcome :=
  match buildFilters fs [] with
  | .error e => ⟨0, .error e⟩
  | .ok compiled => ⟨1, .ok compiled⟩

lemma buildFilters_dup :
    ∀ (fs : List (String × String × String)) (seen : List String),
      ¬ ((fs.map (fun f => f.1)).Nodup ∧ ∀ a ∈ fs.map (fun f => f.1), a ∉ seen) →
      buildFilters fs seen = .error .multipleConditions := by
  intro fs
  induction fs with
  | nil => intro seen h; simp at h
  | cons f fs ih =>
    intro seen h
    by_cases hc : seen.contains f.1 = true
    · simp [buildFilters, hc]
      intro hmem
      exact absurd (by simpa using hc) hmem
    · have hne : f.1 ∉ seen := by simpa using hc
      have hsub : ¬ ((fs.map (fun g => g.1)).Nodup ∧
          ∀ a ∈ fs.map (fun g => g.1), a ∉ f.1 :: seen) := by
        intro hcontra
        obtain ⟨hnd, hall⟩ := hcontra
        apply h
        refine ⟨?_, ?_⟩
        · rw [List.map_cons, List.nodup_cons]
          refine ⟨?_, hnd⟩
          intro hmem
          exact (hall _ hmem) (List.mem_cons_self _ _)
        · intro a ha
          rw [List.map_cons, List.mem_cons] at ha
          rcases ha with ha | ha
          · rw [ha]; exact hne
          · intro hsn
            exact (hall _ ha) (List.mem_cons_of_mem _ hsn)
      simp only [buildFilters, hc, if_false, Bool.false_eq_true, ite_false]
      rw [ih (f.1 :: seen) hsub]

/-- C6: supplying more than one condition against the same attribute path in a
single query or scan call fails with `MultipleConditionsError` before any RPC
is issued; in particular `user_id__contains` together with
`user_id__beginswith` is rejected with zero RPCs. -/
theorem multiple_conditions_rejected (fs : List (String × String × String))
    (h : ¬ (fs.map (fun f => f.1)).Nodup) :
    queryWithKeywordFilters fs = ⟨0, .error .multipleConditions⟩ ∧
    queryWithKeywordFilters
      [("user_id", "contains", "tux"), ("user_id", "begins_with", "penguin")] =
      ⟨0, .error .multipleConditions⟩ := by
  refine ⟨?_, by decide⟩
  unfold queryWithKeywordFilters
  rw [buildFilters_dup fs [] (fun hc => h hc.1)]

/-- C6, witness: the duplicate-path filter list of the scan test is rejected
with zero RPCs. -/
theorem multiple_conditions_rejected_witness :
    queryWithKeywordFilters
      [("user_id", "contains", "tux"), ("user_id", "begins_with", "penguin")] =
      ⟨0, .error .multipleConditions⟩ :=
  (multiple_conditions_rejected
    [("user_id", "contains", "tux"), ("user_id", "begins_with", "penguin")]
    (by decide)).1

/-- Modelled from the spec: the not-found exception taxonomy — a single common
not-found kind and one model-scoped kind per schema (the exception module is
absent from src/). -/
inductive ExcKind where
  | doesNotExistBase
  | modelDoesNotExist (model : String)
deriving DecidableEq

/-- Modelled from the spec: the derives-from relation of the taxonomy: every
model-scoped not-found kind derives from the common not-found kind and from
itself, and from nothing else. -/
def derivesFrom : ExcKind → ExcKind → Bool
  | .doesNotExistBase, .doesNotExistBase => true
  | .doesNotExistBase, .modelDoesNotExist _ => false
  | .modelDoesNotExist _, .doesNotExistBase => true
  | .modelDoesNotExist m, .modelDoesNotExist m2 => m == m2

/-- Modelled from the spec: an exception handler for kind `handler` catches a
raised exception exactly when the raised kind derives from the handler's. -/
def catchesExc (handler raised : ExcKind) : Bool := derivesFrom raised handler

/-- Modelled from the spec: `Model.get` — an empty Get response surfaces the
model-scoped does-not-exist failure of the model that issued the Get. -/
def getItem (model : String) (response : Option Nat) : Except ExcKind Nat :=
  match response with
  | none => .error (.modelDoesNotExist model)
  | some it => .ok it

/-- C9: an empty Get response surfaces the issuing model's own
does-not-exist kind; one model's does-not-exist is never caught by a handler
for a different model's; and a handler for the common not-found kind catches
every model-scoped one. -/
theorem does_not_exist_per_model (m m2 : String) (h : m ≠ m2) :
    getItem m none = .error (.modelDoesNotExist m) ∧
    catchesExc (.modelDoesNotExist m2) (.modelDoesNotExist m) = false ∧
    catchesExc .doesNotExistBase (.modelDoesNotExist m) = true := by
  refine ⟨rfl, ?_, rfl⟩
  simp [catchesExc, derivesFrom, h]

/-- C9, witness: `UserModel`'s does-not-exist is not caught by a handler for
`SimpleUserModel`'s, while the common handler catches it. -/
theorem does_not_exist_per_model_witness :
    getItem "UserModel" none = .error (.modelDoesNotExist "UserModel") ∧
    catchesExc (.modelDoesNotExist "SimpleUserModel")
      (.modelDoesNotExist "UserModel") = false ∧
    catchesExc .doesNotExistBase (.modelDoesNotExist "UserModel") = true :=
  does_not_exist_per_model "UserModel" "SimpleUserModel" (by decide)

/-- Embedded from `src/pynamodb_async/models.py`, `Model.__init__`: the facts
about the caller's stack frame that the guard inspects — whether the frame has
a `cls` local, the name of that local's metaclass, and the caller's function
name. -/
structure CallerFrame where
  hasClsLocal : Bool
  clsMetaclassName : String
  functionName : String
deriving DecidableEq

/-- Errors of the model layer in `src/pynamodb_async/models.py`:
`InvalidUsageException` from `Model.__init__`, and the `ValueError` of
`Model.create` when a range key value is provided but the table has none. -/
inductive ModelError where
  | invalidUsage
  | valueNoRangeKey
deriving DecidableEq

/-- Embedded from `src/pynamodb_async/models.py`, `Model.__init__`: unless the
calling frame has a `cls` local whose metaclass is named `MetaModel` and the
calling function is named `create`, construction raises
`InvalidUsageException`; otherwise the attributes are accepted. -/
def modelInit (caller : CallerFrame) (attributes : List (String × String)) :
    Except ModelError (List (String × String)) :=
  if !caller.hasClsLocal || caller.clsMetaclassName != "MetaModel"
      || caller.functionName != "create" then
    .error .invalidUsage
  else
    .ok attributes

/-- The stack frame seen by `Model.__init__` when called from the `create`
factory classmethod: a `cls` local of metaclass `MetaModel` inside a function
named `create`. -/
def createFrame : CallerFrame := ⟨true, "MetaModel", "create"⟩

/-- Embedded from `src/pynamodb_async/models.py`: the table metadata used by
`Model.create` — the hash key name and the optional range key name. -/
structure MetaTableData where
  hashKeyname : String
  rangeKeyname : Option String
deriving DecidableEq

/-- Embedded from `src/pynamodb_async/models.py`, `Model.create`: a supplied
hash key is stored under the table's hash key name; a supplied range key value
raises `ValueError` when the table declares no range key, and is stored under
the range key name otherwise; the instance is then constructed through
`Model.__init__` from within `create`. -/
def create (meta : MetaTableData) (hashKey rangeKey : Option String)
    (attributes : List (String × String)) :
    Except ModelError (List (String × String)) :=
  let attrs1 := match hashKey with
    | some h => attributes ++ [(meta.hashKeyname, h)]
    | none => attributes
  match rangeKey with
  | some rk =>
    match meta.rangeKeyname with
    | none => .error .valueNoRangeKey
    | some rkn => modelInit createFrame (attrs1 ++ [(rkn, rk)])
  | none => modelInit createFrame attrs1

/-- C10: construction from any calling frame other than the `create` factory's
raises `InvalidUsageException` whatever the argument list; `create` with a
range key value against a table declaring no range key raises `ValueError`;
and construction from the `create` frame succeeds. -/
theorem only_create_constructs (caller : CallerFrame)
    (attrs : List (String × String)) (meta : MetaTableData) (hk : Option String)
    (rk : String) (attrs2 : List (String × String))
    (h : caller ≠ createFrame) (hmeta : meta.rangeKeyname = none) :
    modelInit caller attrs = .error .invalidUsage ∧
    create meta hk (some rk) attrs2 = .error .valueNoRangeKey ∧
    modelInit createFrame attrs = .ok attrs := by
  refine ⟨?_, ?_, rfl⟩
  · obtain ⟨b, mc, fn⟩ := caller
    unfold modelInit
    split
    · rfl
    · rename_i hcond
      exfalso
      apply h
      rw [Bool.not_eq_true] at hcond
      simp only [Bool.or_eq_false_iff, Bool.not_eq_false', bne_eq_false_iff_eq] at hcond
      obtain ⟨⟨hb, hmc⟩, hfn⟩ := hcond
      rw [hb, hmc, hfn]
      rfl
  · simp [create, hmeta]

/-- C10, witness: a frame inside a function named `save` is rejected, and a
`create` call with a range key against a table with only a hash key fails with
`ValueError`. -/
theorem only_create_constructs_witness :
    modelInit ⟨true, "MetaModel", "save"⟩ [] = .error .invalidUsage ∧
    create ⟨"user_name", none⟩ (some "foo") (some "bar") [] =
      .error .valueNoRangeKey ∧
    modelInit createFrame [] = .ok [] :=
  only_create_constructs ⟨true, "MetaModel", "save"⟩ [] ⟨"user_name", none⟩
    (some "foo") "bar" [] (by decide) rfl

end InPynamoDB
